import Mathlib

/-!
Shallow embedding of the smartreader store (hn_new.py): content compression,
the stories/dismissed/read_later/history/fetched_urls/usage_log tables, the
content-fetch job queue, listing pagination, and blocking detection |
together with theorems settling the given claims about them.

Python strings are modelled as lists of characters (`Str`), SQL timestamps as
epoch seconds (`Nat`), and SQL REAL billing columns as `Nat` (they are only
ever stored and copied verbatim by the modelled operations).
-/

namespace SmartReader

/-- Python string model: a list of characters. -/
abbrev Str := List Char

/-- Whitespace characters removed by Python str.strip (ASCII subset). -/
def pyWhitespace (c : Char) : Bool :=
  c = ' ' || c = '\t' || c = '\n' || c = '\r' || c.toNat = 11 || c.toNat = 12

/-- Python str.strip: drop leading and trailing whitespace. -/
def pyStrip (s : Str) : Str :=
  ((s.dropWhile pyWhitespace).reverse.dropWhile pyWhitespace).reverse

/-- ASCII lower-casing of one character, modelling Python str.lower on the
ASCII range (the blocking patterns and rule words are all ASCII). -/
def charLower (c : Char) : Char :=
  if 65 ≤ c.toNat ∧ c.toNat ≤ 90 then Char.ofNat (c.toNat + 32) else c

/-- Python str.lower over the modelled string. -/
def pyLower (s : Str) : Str := s.map charLower

/-- Substring search: does pat occur contiguously inside s?  Models the
Python `in` operator on strings and literal-pattern regex search. -/
def subSearch (pat : Str) : Str → Bool
  | [] => pat.isEmpty
  | s :: rest => pat.isPrefixOf (s :: rest) || subSearch pat rest

/-- TEASER_LENGTH constant from the source. -/
def TEASER_LENGTH : Nat := 300

/-! ### Content compression (compress_content / decompress_content)

The source stores content as `"z:" + base64(zlib.compress(text.encode("utf-8")))`.
Base64 and UTF-8 are implemented concretely below; the zlib deflate codec is an
external C library and is modelled as an abstract codec whose documented
round-trip contract appears as an explicit hypothesis where a theorem needs it. -/

/-- Marker prepended to compressed content, the source constant with value "z:". -/
def compressMarker : Str := ['z', ':']

/-- Standard base64 alphabet. -/
def b64Alphabet : Str :=
  [ 'A', 'B', 'C', 'D', 'E', 'F', 'G', 'H', 'I', 'J', 'K', 'L', 'M',
    'N', 'O', 'P', 'Q', 'R', 'S', 'T', 'U', 'V', 'W', 'X', 'Y', 'Z',
    'a', 'b', 'c', 'd', 'e', 'f', 'g', 'h', 'i', 'j', 'k', 'l', 'm',
    'n', 'o', 'p', 'q', 'r', 's', 't', 'u', 'v', 'w', 'x', 'y', 'z',
    '0', '1', '2', '3', '4', '5', '6', '7', '8', '9', '+', '/' ]

/-- Character of a six-bit group. -/
def b64CharOf (k : Nat) : Char := b64Alphabet.getD k '?'

/-- Index of a base64 character in the alphabet, none when not in it. -/
def b64IndexOf (c : Char) : Option Nat :=
  if c ∈ b64Alphabet then some (b64Alphabet.indexOf c) else none

/-- Base64-encode a byte list (with `=` padding), as base64.b64encode does. -/
def b64Encode : List Nat → Str
  | b0 :: b1 :: b2 :: rest =>
    let n := b0 * 65536 + b1 * 256 + b2
    b64CharOf (n / 262144) :: b64CharOf (n / 4096 % 64) ::
      b64CharOf (n / 64 % 64) :: b64CharOf (n % 64) :: b64Encode rest
  | [b0, b1] =>
    let n := b0 * 65536 + b1 * 256
    [b64CharOf (n / 262144), b64CharOf (n / 4096 % 64), b64CharOf (n / 64 % 64), '=']
  | [b0] =>
    let n := b0 * 65536
    [b64CharOf (n / 262144), b64CharOf (n / 4096 % 64), '=', '=']
  | [] => []

/-- Base64-decode a character list, none on malformed input, as
base64.b64decode does (raising becomes `none`). -/
def b64Decode : Str → Option (List Nat)
  | c0 :: c1 :: c2 :: c3 :: rest =>
    match b64IndexOf c0, b64IndexOf c1 with
    | some k0, some k1 =>
      if c2 = '=' then
        if c3 = '=' ∧ rest = [] then some [k0 * 4 + k1 / 16] else none
      else
        match b64IndexOf c2 with
        | some k2 =>
          if c3 = '=' then
            if rest = [] then some [k0 * 4 + k1 / 16, k1 % 16 * 16 + k2 / 4] else none
          else
            match b64IndexOf c3 with
            | some k3 =>
              match b64Decode rest with
              | some bs =>
                let n := k0 * 262144 + k1 * 4096 + k2 * 64 + k3
                some (n / 65536 :: n / 256 % 256 :: n % 256 :: bs)
              | none => none
            | none => none
        | none => none
    | _, _ => none
  | [] => some []
  | _ => none

/-- UTF-8 encoding of one Unicode code point. -/
def utf8EncodeCp (n : Nat) : List Nat :=
  if n < 128 then [n]
  else if n < 2048 then [192 + n / 64, 128 + n % 64]
  else if n < 65536 then [224 + n / 4096, 128 + n / 64 % 64, 128 + n % 64]
  else [240 + n / 262144, 128 + n / 4096 % 64, 128 + n / 64 % 64, 128 + n % 64]

/-- UTF-8 encoding of a string, modelling Python str.encode("utf-8"). -/
def utf8Encode (s : Str) : List Nat := (s.map (fun c => utf8EncodeCp c.toNat)).flatten

/-- Code point of a two-byte UTF-8 sequence: checks the continuation byte
and rejects overlong encodings, as the strict Python decoder does. -/
def utf8Dec2 (b0 b1 : Nat) : Option Nat :=
  if 128 ≤ b1 ∧ b1 < 192 then
    let n := (b0 - 192) * 64 + (b1 - 128)
    if n < 128 then none else some n
  else none

/-- Code point of a three-byte UTF-8 sequence: checks continuation bytes and
rejects overlong encodings and surrogates. -/
def utf8Dec3 (b0 b1 b2 : Nat) : Option Nat :=
  if (128 ≤ b1 ∧ b1 < 192) ∧ (128 ≤ b2 ∧ b2 < 192) then
    let n := (b0 - 224) * 4096 + (b1 - 128) * 64 + (b2 - 128)
    if n < 2048 then none
    else if 55296 ≤ n ∧ n < 57344 then none
    else some n
  else none

/-- Code point of a four-byte UTF-8 sequence: checks continuation bytes and
rejects overlong encodings and values above 0x10FFFF. -/
def utf8Dec4 (b0 b1 b2 b3 : Nat) : Option Nat :=
  if (128 ≤ b1 ∧ b1 < 192) ∧ (128 ≤ b2 ∧ b2 < 192) ∧ (128 ≤ b3 ∧ b3 < 192) then
    let n := (b0 - 240) * 262144 + (b1 - 128) * 4096 + (b2 - 128) * 64 + (b3 - 128)
    if n < 65536 then none
    else if 1114112 ≤ n then none
    else some n
  else none

/-- One step of the strict UTF-8 decoder (Python bytes.decode("utf-8")):
reads one code point from the head of the byte list and returns it with the
remaining bytes; `none` models UnicodeDecodeError (bad leading byte, bad
continuation, overlong form, surrogate, or out-of-range value). -/
def utf8Step : List Nat → Option (Nat × List Nat)
  | [] => none
  | b0 :: rest =>
    if b0 < 128 then some (b0, rest)
    else if b0 < 192 then none
    else if b0 < 224 then
      match rest with
      | b1 :: rest1 =>
        match utf8Dec2 b0 b1 with
        | some n => some (n, rest1)
        | none => none
      | [] => none
    else if b0 < 240 then
      match rest with
      | b1 :: b2 :: rest2 =>
        match utf8Dec3 b0 b1 b2 with
        | some n => some (n, rest2)
        | none => none
      | _ => none
    else if b0 < 248 then
      match rest with
      | b1 :: b2 :: b3 :: rest3 =>
        match utf8Dec4 b0 b1 b2 b3 with
        | some n => some (n, rest3)
        | none => none
      | _ => none
    else none

/-- Fuelled iteration of utf8Step; each step consumes at least one byte, so
length-many steps always suffice. -/
def utf8DecodeAux : Nat → List Nat → Option Str
  | _, [] => some []
  | 0, _ :: _ => none
  | fuel + 1, b0 :: rest =>
    match utf8Step (b0 :: rest) with
    | some (n, r) => (utf8DecodeAux fuel r).map (fun s => Char.ofNat n :: s)
    | none => none

/-- Strict UTF-8 decoding of a byte list, modelling bytes.decode("utf-8"). -/
def utf8Decode (l : List Nat) : Option Str := utf8DecodeAux l.length l

/-- Abstract model of the external zlib codec used by the source
(zlib.compress at level 6 and zlib.decompress); `none` models an exception. -/
structure ZlibCodec where
  compress : List Nat → List Nat
  decompress : List Nat → Option (List Nat)

/-- Documented contract of zlib: decompress inverts compress, and compress
emits bytes when fed bytes. -/
def ZlibCodec.Lawful (z : ZlibCodec) : Prop :=
  (∀ b, z.decompress (z.compress b) = some b) ∧
  (∀ b, (∀ x ∈ b, x < 256) → ∀ x ∈ z.compress b, x < 256)

/-- Trivial codec (identity compression); lawful, used to instantiate
hypotheses on concrete inputs. -/
def idZlib : ZlibCodec := { compress := id, decompress := some }

/-- compress_content from the source: empty text is returned unchanged,
otherwise "z:" ++ base64(zlib(utf8 text)). -/
def compress_content (z : ZlibCodec) (text : Str) : Str :=
  if text = [] then text
  else compressMarker ++ b64Encode (z.compress (utf8Encode text))

/-- decompress_content from the source: empty data and data without the "z:"
marker are returned as-is; otherwise decode, with the original data returned
on any decoding exception (safety fallback). -/
def decompress_content (z : ZlibCodec) (data : Str) : Str :=
  if data = [] then data
  else if ¬ compressMarker.isPrefixOf data then data
  else
    match b64Decode (data.drop 2) with
    | none => data
    | some bytes =>
      match z.decompress bytes with
      | none => data
      | some raw =>
        match utf8Decode raw with
        | none => data
        | some s => s

/-! ### Data model (SCHEMA) -/

/-- Values of the content_status column: pending, fetching, retry, done,
failed, blocked, skipped. -/
inductive ContentStatus
  | pending
  | fetching
  | retry
  | done
  | failed
  | blocked
  | skipped
deriving DecidableEq, Repr

/-- Terminal statuses of the content state machine. -/
def ContentStatus.isTerminal : ContentStatus → Bool
  | .done => true
  | .failed => true
  | .blocked => true
  | .skipped => true
  | _ => false

/-- Row of the stories table. -/
structure Story where
  id : Nat
  title : Str
  url : Option Str
  domain : Option Str
  author : Option Str
  time : Nat
  score : Int
  descendants : Int
  content : Option Str
  content_status : ContentStatus
  content_attempts : Nat
  content_source : Option Str
  browser_ms : Nat
  hit_front_page : Bool
  front_page_rank : Option Nat
  teaser : Option Str
  created_at : Nat
  updated_at : Nat
deriving DecidableEq, Repr

/-- Row of the fetched_urls URL-content cache. -/
structure FetchedUrlRow where
  url : Str
  content : Option Str
  content_source : Option Str
  browser_ms : Nat
  fetched_at : Nat
deriving DecidableEq, Repr

/-- Row of the append-only usage_log table. -/
structure UsageRow where
  story_id : Nat
  url : Str
  browser_ms : Nat
  source : Option Str
  created_at : Nat
deriving DecidableEq, Repr

/-- Row of the dismissed table (story_id primary key, no foreign key). -/
structure DismissedRow where
  story_id : Nat
  created_at : Nat
deriving DecidableEq, Repr

/-- Row of the read_later table (story_id references stories(id)). -/
structure ReadLaterRow where
  story_id : Nat
  created_at : Nat
deriving DecidableEq, Repr

/-- Row of the history table. -/
structure HistoryRow where
  story_id : Nat
  opened_at : Nat
deriving DecidableEq, Repr

/-- The store state: the tables the claims are about.  Row order models
rowid (insertion) order.  The usage_summary monthly-rollup table is not part
of the modelled state: no claim refers to it. -/
structure Db where
  stories : List Story
  fetched_urls : List FetchedUrlRow
  usage_log : List UsageRow
  read_later : List ReadLaterRow
  dismissed : List DismissedRow
  history : List HistoryRow
  blocked_domains : List Str
  blocked_words : List Str
  merit_words : List (Str × Int)
  demerit_words : List (Str × Int)
  merit_domains : List (Str × Int)
  demerit_domains : List (Str × Int)
deriving DecidableEq, Repr

/-- Parsed story dict handed to upsert_story by the ingestor. -/
structure StoryDict where
  id : Nat
  title : Str
  url : Option Str
  text : Option Str
  domain : Option Str
  author : Option Str
  time : Nat
  score : Int
  descendants : Int
deriving DecidableEq, Repr

/-- Python truthiness of an optional string: None and "" are falsy. -/
def optStrFalsy : Option Str → Bool
  | none => true
  | some s => s.isEmpty

/-! ### Store operations -/

/-- upsert_story from the source.  A story whose url is falsy and whose text
is truthy takes the self-text insert (content populated, status done, source
hn_text) with a conflict clause that fills content/status/source only when
the stored content is NULL; every other story takes the plain insert whose
conflict clause updates score, descendants and updated_at only. -/
def upsert_story (z : ZlibCodec) (db : Db) (now : Nat) (s : StoryDict) : Db :=
  if optStrFalsy s.url ∧ ¬ optStrFalsy s.text then
    let compressed : Str := compress_content z (s.text.getD [])
    if db.stories.any (fun t => t.id = s.id) then
      { db with stories := db.stories.map (fun t =>
          if t.id = s.id then
            { t with
              score := s.score
              descendants := s.descendants
              content := match t.content with
                | some c => some c
                | none => some compressed
              content_status := match t.content with
                | some _ => t.content_status
                | none => ContentStatus.done
              content_source := match t.content with
                | some _ => t.content_source
                | none => some [ 'h', 'n', '_', 't', 'e', 'x', 't' ]
              updated_at := now }
          else t) }
    else
      { db with stories := db.stories ++
          [ { id := s.id, title := s.title, url := s.url, domain := s.domain,
              author := s.author, time := s.time, score := s.score,
              descendants := s.descendants, content := some compressed,
              content_status := ContentStatus.done, content_attempts := 0,
              content_source := some [ 'h', 'n', '_', 't', 'e', 'x', 't' ],
              browser_ms := 0, hit_front_page := false, front_page_rank := none,
              teaser := none, created_at := now, updated_at := now } ] }
  else
    if db.stories.any (fun t => t.id = s.id) then
      { db with stories := db.stories.map (fun t =>
          if t.id = s.id then
            { t with score := s.score, descendants := s.descendants, updated_at := now }
          else t) }
    else
      { db with stories := db.stories ++
          [ { id := s.id, title := s.title, url := s.url, domain := s.domain,
              author := s.author, time := s.time, score := s.score,
              descendants := s.descendants, content := none,
              content_status := ContentStatus.pending, content_attempts := 0,
              content_source := none, browser_ms := 0, hit_front_page := false,
              front_page_rank := none, teaser := none,
              created_at := now, updated_at := now } ] }

/-- Eligibility condition of the claim subquery: status in (pending, retry),
url not null, attempts below the bound. -/
def EligibleJob (maxAttempts : Nat) (s : Story) : Prop :=
  (s.content_status = ContentStatus.pending ∨ s.content_status = ContentStatus.retry) ∧
    s.url ≠ none ∧ s.content_attempts < maxAttempts

instance (maxAttempts : Nat) (s : Story) : Decidable (EligibleJob maxAttempts s) := by
  unfold EligibleJob; infer_instance

/-- Strict comparison realising ORDER BY content_attempts ASC, time ASC with
the index tiebreak by rowid (modelled as the id). -/
def jobKeyLt (a b : Story) : Bool :=
  decide (a.content_attempts < b.content_attempts ∨
    (a.content_attempts = b.content_attempts ∧
      (a.time < b.time ∨ (a.time = b.time ∧ a.id < b.id))))

/-- Fold selecting the minimum of a list under a strict comparison. -/
def pickMin (f : Story → Story → Bool) : Option Story → List Story → Option Story
  | acc, [] => acc
  | none, s :: rest => pickMin f (some s) rest
  | some t, s :: rest => pickMin f (some (if f s t then s else t)) rest

/-- Row selected by the claim subquery (LIMIT 1 under the order above). -/
def selectJob (stories : List Story) (maxAttempts : Nat) : Option Story :=
  pickMin jobKeyLt none (stories.filter (fun s => decide (EligibleJob maxAttempts s)))

/-- Job row returned by claim_next_content_job (RETURNING id, url, domain,
content_attempts, with attempts already incremented). -/
structure ClaimedJob where
  id : Nat
  url : Str
  domain : Option Str
  content_attempts : Nat
deriving DecidableEq, Repr

/-- claim_next_content_job from the source: one atomic UPDATE..RETURNING that
marks the selected row fetching, increments its attempts, and returns its id,
url, domain and post-increment attempts; None and no change when nothing
qualifies. -/
def claim_next_content_job (db : Db) (now maxAttempts : Nat) :
    Option ClaimedJob × Db :=
  match selectJob db.stories maxAttempts with
  | none => (none, db)
  | some s =>
    (some { id := s.id, url := s.url.getD [], domain := s.domain,
            content_attempts := s.content_attempts + 1 },
     { db with stories := db.stories.map (fun t =>
         if t.id = s.id then
           { t with content_status := ContentStatus.fetching,
                    content_attempts := t.content_attempts + 1,
                    updated_at := now }
         else t) })

/-- complete_content_job from the source: compress truthy content, then
update content, content_status, content_source, browser_ms and updated_at of
the story row.  The teaser column is not among the updated columns. -/
def complete_content_job (z : ZlibCodec) (db : Db) (now : Nat) (story_id : Nat)
    (content : Option Str) (status : ContentStatus) (source : Option Str)
    (browser_ms : Nat) : Db :=
  let compressed : Option Str :=
    match content with
    | some c => if c = [] then some c else some (compress_content z c)
    | none => none
  { db with stories := db.stories.map (fun t =>
      if t.id = story_id then
        { t with content := compressed, content_status := status,
                 content_source := source, browser_ms := browser_ms,
                 updated_at := now }
      else t) }

/-- retry_content_job from the source. -/
def retry_content_job (db : Db) (now : Nat) (story_id : Nat) : Db :=
  { db with stories := db.stories.map (fun t =>
      if t.id = story_id then
        { t with content_status := ContentStatus.retry, updated_at := now }
      else t) }

/-- Teaser of a text: first TEASER_LENGTH characters stripped, with "..."
appended when the text is longer than TEASER_LENGTH. -/
def teaserOf (text : Str) : Str :=
  pyStrip (text.take TEASER_LENGTH) ++
    (if TEASER_LENGTH < text.length then [ '.', '.', '.' ] else [])

/-- update_content from the source: regenerate the teaser from the (possibly
compressed) content, then update content, content_status, content_source,
browser_ms, teaser and updated_at of the story row. -/
def update_content (z : ZlibCodec) (db : Db) (now : Nat) (story_id : Nat)
    (content : Str) (status : ContentStatus) (source : Option Str)
    (browser_ms : Nat) : Db :=
  let teaser : Option Str :=
    if content = [] then none
    else
      let text := if compressMarker.isPrefixOf content
        then decompress_content z content else content
      some (teaserOf text)
  { db with stories := db.stories.map (fun t =>
      if t.id = story_id then
        { t with content := some content, content_status := status,
                 content_source := source, browser_ms := browser_ms,
                 teaser := teaser, updated_at := now }
      else t) }

/-- cleanup_stuck_content_jobs from the source: three sequential UPDATEs |
no-url non-terminal rows become skipped, stuck fetching rows with attempts
below the bound become retry, and remaining non-terminal rows with attempts
at or above the bound become failed. -/
def cleanup_stuck_content_jobs (db : Db) (now maxAttempts : Nat) : Db :=
  let step1 := db.stories.map (fun t =>
    if t.url = none ∧ t.content_status.isTerminal = false then
      { t with content_status := ContentStatus.skipped, updated_at := now }
    else t)
  let step2 := step1.map (fun t =>
    if t.content_status = ContentStatus.fetching ∧ t.content_attempts < maxAttempts then
      { t with content_status := ContentStatus.retry, updated_at := now }
    else t)
  let step3 := step2.map (fun t =>
    if t.content_status.isTerminal = false ∧ maxAttempts ≤ t.content_attempts then
      { t with content_status := ContentStatus.failed, updated_at := now }
    else t)
  { db with stories := step3 }

/-- dismiss_story from the source: INSERT OR IGNORE into dismissed; succeeds
for every id because the table has no foreign key. -/
def dismiss_story (db : Db) (now : Nat) (story_id : Nat) : Db :=
  if db.dismissed.any (fun d => d.story_id = story_id) then db
  else { db with dismissed := db.dismissed ++ [ { story_id := story_id, created_at := now } ] }

/-- undismiss_story from the source. -/
def undismiss_story (db : Db) (story_id : Nat) : Db :=
  { db with dismissed := db.dismissed.filter (fun d => ¬ d.story_id = story_id) }

/-- clear_dismissed from the source. -/
def clear_dismissed (db : Db) : Db :=
  { db with dismissed := [] }

/-- Error raised by a foreign-key violation (sqlite3.IntegrityError under
PRAGMA foreign_keys = ON). -/
inductive FkViolation
  | readLaterFk
deriving DecidableEq, Repr

/-- add_read_later from the source: INSERT OR IGNORE into read_later, whose
story_id references stories(id).  OR IGNORE swallows the primary-key
conflict but not the foreign-key check, which raises when the id has no
stories row. -/
def add_read_later (db : Db) (now : Nat) (story_id : Nat) : Except FkViolation Db :=
  if db.read_later.any (fun r => r.story_id = story_id) then Except.ok db
  else if db.stories.any (fun s => s.id = story_id) then
    Except.ok { db with read_later := db.read_later ++ [ { story_id := story_id, created_at := now } ] }
  else Except.error FkViolation.readLaterFk

/-- get_cached_content result shape. -/
structure CachedContent where
  content : Option Str
  source : Option Str
  browser_ms : Nat
deriving DecidableEq, Repr

/-- get_cached_content from the source: lookup of the URL in fetched_urls. -/
def get_cached_content (db : Db) (url : Str) : Option CachedContent :=
  (db.fetched_urls.find? (fun r => r.url = url)).map (fun r =>
    { content := r.content, source := r.content_source, browser_ms := r.browser_ms })

/-- cache_content from the source: INSERT OR REPLACE into fetched_urls. -/
def cache_content (db : Db) (now : Nat) (url : Str) (content : Str)
    (source : Option Str) (browser_ms : Nat) : Db :=
  { db with fetched_urls :=
      db.fetched_urls.filter (fun r => ¬ r.url = url) ++
        [ { url := url, content := some content, content_source := source,
            browser_ms := browser_ms, fetched_at := now } ] }

/-- log_usage from the source: append one usage_log row. -/
def log_usage (db : Db) (now : Nat) (story_id : Nat) (url : Str)
    (browser_ms : Nat) (source : Option Str) : Db :=
  { db with usage_log := db.usage_log ++
      [ { story_id := story_id, url := url, browser_ms := browser_ms,
          source := source, created_at := now } ] }

/-- URL-cache branch of the content worker loop: after claiming a job, the
worker looks the job URL up in fetched_urls and, on a hit, completes the job
as done with the cached payload, source and browser_ms; no usage_log entry is
appended on this path.  None when the cache misses (the worker then proceeds
to the renderer). -/
def worker_cache_step (z : ZlibCodec) (db : Db) (now : Nat) (job : ClaimedJob) :
    Option Db :=
  match get_cached_content db job.url with
  | some cached =>
    some (complete_content_job z db now job.id cached.content ContentStatus.done
      cached.source cached.browser_ms)
  | none => none

/-- cleanup_stories from the source, steps 1-3 and the marker horizon: delete
stories dismissed longer than dismissed_hours ago and stories older than
max_age_days that are neither read-later nor dismissed, deleting from the
child tables history, read_later and dismissed first; then delete dismissed
markers older than 60 days and fetched_urls rows older than
content_cache_days.  Steps 4-5 (usage_log aggregation into usage_summary)
only touch tables outside the modelled state. -/
def cleanup_stories (db : Db) (now : Nat)
    (dismissed_hours max_age_days content_cache_days : Nat) : Db :=
  let dismissed_cutoff := now - dismissed_hours * 3600
  let age_cutoff := now - max_age_days * 24 * 3600
  let cache_cutoff := now - content_cache_days * 24 * 3600
  let marker_cutoff := now - 60 * 24 * 3600
  let dismissed_ids := (db.stories.filter (fun s =>
    db.dismissed.any (fun d => d.story_id = s.id ∧ d.created_at < dismissed_cutoff))).map (fun s => s.id)
  let old_ids := (db.stories.filter (fun s =>
    s.time < age_cutoff ∧
      db.read_later.all (fun r => ¬ r.story_id = s.id) ∧
      db.dismissed.all (fun d => ¬ d.story_id = s.id))).map (fun s => s.id)
  let all_ids := dismissed_ids ++ old_ids
  { db with
    history := db.history.filter (fun h => ¬ all_ids.contains h.story_id)
    read_later := db.read_later.filter (fun r => ¬ all_ids.contains r.story_id)
    dismissed := (db.dismissed.filter (fun d => ¬ all_ids.contains d.story_id)).filter
      (fun d => ¬ d.created_at < marker_cutoff)
    stories := db.stories.filter (fun s => ¬ all_ids.contains s.id)
    fetched_urls := db.fetched_urls.filter (fun r => ¬ r.fetched_at < cache_cutoff) }

/-! ### Blocking detection -/

/-- BLOCKING_PATTERNS from the source (all literal, all lowercase). -/
def BLOCKING_PATTERNS : List Str :=
  [ [ 'c', 'a', 'p', 't', 'c', 'h', 'a' ],
    [ 'p', 'l', 'e', 'a', 's', 'e', ' ', 'v', 'e', 'r', 'i', 'f', 'y' ],
    [ 'a', 'c', 'c', 'e', 's', 's', ' ', 'd', 'e', 'n', 'i', 'e', 'd' ],
    [ 'f', 'o', 'r', 'b', 'i', 'd', 'd', 'e', 'n' ],
    [ 'r', 'a', 't', 'e', ' ', 'l', 'i', 'm', 'i', 't' ],
    [ 't', 'o', 'o', ' ', 'm', 'a', 'n', 'y', ' ', 'r', 'e', 'q', 'u', 'e', 's', 't', 's' ],
    [ 'b', 'l', 'o', 'c', 'k', 'e', 'd' ],
    [ 'u', 'n', 'u', 's', 'u', 'a', 'l', ' ', 't', 'r', 'a', 'f', 'f', 'i', 'c' ],
    [ 's', 'e', 'c', 'u', 'r', 'i', 't', 'y', ' ', 'c', 'h', 'e', 'c', 'k' ],
    [ 'd', 'd', 'o', 's', ' ', 'p', 'r', 'o', 't', 'e', 'c', 't', 'i', 'o', 'n' ],
    [ 'c', 'h', 'a', 'l', 'l', 'e', 'n', 'g', 'e', '-', 'p', 'l', 'a', 't', 'f', 'o', 'r', 'm' ],
    [ 'h', 'c', 'a', 'p', 't', 'c', 'h', 'a' ],
    [ 'r', 'e', 'c', 'a', 'p', 't', 'c', 'h', 'a' ],
    [ 'j', 'u', 's', 't', ' ', 'a', ' ', 'm', 'o', 'm', 'e', 'n', 't' ],
    [ 'c', 'h', 'e', 'c', 'k', 'i', 'n', 'g', ' ', 'y', 'o', 'u', 'r', ' ', 'b', 'r', 'o', 'w', 's', 'e', 'r' ],
    [ 'e', 'n', 'a', 'b', 'l', 'e', ' ', 'j', 'a', 'v', 'a', 's', 'c', 'r', 'i', 'p', 't' ],
    [ 'r', 'e', 'd', 'i', 'r', 'e', 'c', 't', 'i', 'n', 'g' ] ]

/-- MIN_CONTENT_LENGTH from the source. -/
def MIN_CONTENT_LENGTH : Nat := 200

/-- BLOCKING_REGEX.search with re.IGNORECASE over literal lowercase patterns:
some pattern occurs in the lowercased text. -/
def blockingSearch (s : Str) : Bool :=
  BLOCKING_PATTERNS.any (fun p => subSearch p (pyLower s))

/-- detect_blocking from the source: empty content is never blocking; short
content (below MIN_CONTENT_LENGTH) is blocking when a pattern occurs anywhere;
longer content is blocking when a pattern occurs in the lowercased first 2000
characters unless total length exceeds 3000. -/
def detect_blocking (content : Str) : Bool :=
  if content = [] then false
  else if content.length < MIN_CONTENT_LENGTH then blockingSearch content
  else
    let first_chunk := pyLower (content.take 2000)
    if blockingSearch first_chunk then
      if 3000 < content.length then false else true
    else false

/-! ### Story listing (get_stories) -/

/-- Sort argument of get_stories; anything other than "newest" sorts oldest
first, and only these two values reach the store from the API. -/
inductive SortOrder
  | newest
  | oldest
deriving DecidableEq, Repr

/-- Boolean options of get_stories. -/
structure StoriesQueryOpts where
  dismissed_only : Bool
  include_blocked : Bool
  include_read_later : Bool
deriving DecidableEq, Repr

/-- Story as annotated by the scored CTE and the Python scoring loop. -/
structure AnnotatedStory where
  story : Story
  domain_merit : Int
  domain_demerit : Int
  is_read_later : Bool
  is_dismissed : Bool
  is_read : Bool
  is_domain_blocked : Bool
  word_merit : Int
  word_demerit : Int
  merit_score : Int
  demerit_score : Int
  net_score : Int
deriving DecidableEq, Repr

/-- Membership of a story id in the dismissed table. -/
def isDismissedIn (db : Db) (sid : Nat) : Bool :=
  db.dismissed.any (fun d => d.story_id = sid)

/-- Membership of a story id in the read_later table. -/
def isReadLaterIn (db : Db) (sid : Nat) : Bool :=
  db.read_later.any (fun r => r.story_id = sid)

/-- Membership of a story id in the history table. -/
def isReadIn (db : Db) (sid : Nat) : Bool :=
  db.history.any (fun h => h.story_id = sid)

/-- LEFT JOIN blocked_domains ON s.domain = bd.domain: a NULL domain joins
nothing. -/
def isDomainBlockedIn (db : Db) (dom : Option Str) : Bool :=
  match dom with
  | some d => db.blocked_domains.any (fun b => b = d)
  | none => false

/-- COALESCE(weight, 0) of a LEFT JOIN on a weighted domain table. -/
def domainWeight (tbl : List (Str × Int)) (dom : Option Str) : Int :=
  match dom with
  | some d => ((tbl.find? (fun p => p.1 = d)).map (fun p => p.2)).getD 0
  | none => 0

/-- Keyset-pagination cursor test of the SQL batch query. -/
def cursorKeep (sort : SortOrder) (ct ci : Nat) (s : Story) : Bool :=
  match sort with
  | .newest => s.time < ct || (s.time = ct && s.id < ci)
  | .oldest => ct < s.time || (s.time = ct && ci < s.id)

/-- ORDER BY time DESC, id DESC (newest) or time ASC, id ASC (oldest), as a
total comparison (ids are the primary key). -/
def storyLe (sort : SortOrder) (a b : Story) : Bool :=
  match sort with
  | .newest => b.time < a.time || (b.time = a.time && b.id ≤ a.id)
  | .oldest => a.time < b.time || (a.time = b.time && a.id ≤ b.id)

/-- Insertion of one element into a sorted list. -/
def insertSorted (le : Story → Story → Bool) (x : Story) : List Story → List Story
  | [] => [x]
  | y :: ys => if le x y then x :: y :: ys else y :: insertSorted le x ys

/-- Insertion sort realising the SQL ORDER BY (unique result for the total
orders used here). -/
def sortStories (le : Story → Story → Bool) : List Story → List Story
  | [] => []
  | x :: xs => insertSorted le x (sortStories le xs)

/-- One SQL batch of the get_stories loop: WHERE filters and cursor, ORDER
BY, LIMIT sql_limit. -/
def sqlStoriesBatch (db : Db) (opts : StoriesQueryOpts) (sort : SortOrder)
    (cursor : Option (Nat × Nat)) (sql_limit : Nat) : List Story :=
  let base := db.stories.filter (fun s =>
    (if opts.dismissed_only then isDismissedIn db s.id else ! isDismissedIn db s.id) &&
    (opts.include_blocked || ! isDomainBlockedIn db s.domain) &&
    (opts.include_read_later || ! isReadLaterIn db s.id) &&
    (match cursor with
     | some (ct, ci) => cursorKeep sort ct ci s
     | none => true))
  (sortStories (storyLe sort) base).take sql_limit

/-- URL key used for deduplication: the url when truthy, else "hn:<id>". -/
def urlKeyOf (s : Story) : Str :=
  match s.url with
  | some u => if u = [] then [ 'h', 'n', ':' ] ++ (Nat.repr s.id).toList else u
  | none => [ 'h', 'n', ':' ] ++ (Nat.repr s.id).toList

/-- Scoring annotation of one row (the scored CTE columns plus the Python
word scores). -/
def annotateStory (db : Db) (s : Story) : AnnotatedStory :=
  let title_lower := pyLower s.title
  let dm := domainWeight db.merit_domains s.domain
  let dd := domainWeight db.demerit_domains s.domain
  let wm := (db.merit_words.map (fun p =>
    if subSearch (pyLower p.1) title_lower then p.2 else 0)).sum
  let wd := (db.demerit_words.map (fun p =>
    if subSearch (pyLower p.1) title_lower then p.2 else 0)).sum
  { story := s
    domain_merit := dm
    domain_demerit := dd
    is_read_later := isReadLaterIn db s.id
    is_dismissed := isDismissedIn db s.id
    is_read := isReadIn db s.id
    is_domain_blocked := isDomainBlockedIn db s.domain
    word_merit := wm
    word_demerit := wd
    merit_score := dm + wm
    demerit_score := dd + wd
    net_score := (dm + wm) - (dd + wd) }

/-- Python row loop of get_stories: skip blocked-word titles, deduplicate on
the URL key, annotate and collect, stopping once limit rows are collected
(the break leaves later rows unprocessed and out of the seen set). -/
def processRows (db : Db) (opts : StoriesQueryOpts) (limit : Nat) :
    List Story → List AnnotatedStory → List Str → List AnnotatedStory × List Str
  | [], acc, seen => (acc, seen)
  | r :: rs, acc, seen =>
    if limit ≤ acc.length then (acc, seen)
    else
      if ! opts.include_blocked &&
          db.blocked_words.any (fun bw => subSearch (pyLower bw) (pyLower r.title)) then
        processRows db opts limit rs acc seen
      else if seen.contains (urlKeyOf r) then
        processRows db opts limit rs acc seen
      else
        processRows db opts limit rs (acc ++ [annotateStory db r]) (urlKeyOf r :: seen)

/-- Batch loop of get_stories: while fewer than limit stories are collected
and the last batch was full, fetch the next batch past the cursor, process
its rows, and advance the cursor to the last row of the batch.  The fuel
argument only bounds the recursion; get_stories passes enough for the loop
to run to completion. -/
def fetchLoop (db : Db) (opts : StoriesQueryOpts) (sort : SortOrder)
    (limit sql_limit : Nat) :
    Nat → Option (Nat × Nat) → List AnnotatedStory → List Str → Bool →
      List AnnotatedStory × Bool
  | 0, _, acc, _, has_more_in_db => (acc, has_more_in_db)
  | fuel + 1, cursor, acc, seen, has_more_in_db =>
    if acc.length < limit ∧ has_more_in_db = true then
      let rows := sqlStoriesBatch db opts sort cursor sql_limit
      let hmdb := decide (rows.length = sql_limit)
      match rows with
      | [] => (acc, hmdb)
      | r0 :: rest =>
        let out := processRows db opts limit (r0 :: rest) acc seen
        let lastRow := (r0 :: rest).getLastD r0
        fetchLoop db opts sort limit sql_limit fuel
          (some (lastRow.time, lastRow.id)) out.1 out.2 hmdb
    else (acc, has_more_in_db)

/-- Result shape of get_stories. -/
structure StoriesPage where
  stories : List AnnotatedStory
  has_more : Bool
  next_cursor : Option Str
deriving DecidableEq, Repr

/-- Cursor string "<time>:<id>" of a story. -/
def cursorStringOf (s : Story) : Str :=
  (Nat.repr s.time).toList ++ [ ':' ] ++ (Nat.repr s.id).toList

/-- Final page assembly of get_stories: next_cursor is built from the
collected list only when it is non-empty and either the last batch was full
or at least limit rows were collected, and has_more is true when more than
limit rows were collected or the last batch was full. -/
def buildPage (limit : Nat) (out : List AnnotatedStory × Bool) : StoriesPage :=
  let stories := out.1
  let hmdb := out.2
  let next_cursor : Option Str :=
    match stories with
    | [] => none
    | s0 :: rest =>
      if hmdb = true ∨ limit ≤ (s0 :: rest).length then
        let lastStory :=
          if (s0 :: rest).length ≤ limit then (s0 :: rest).getLastD s0
          else ((s0 :: rest).drop (limit - 1)).headD s0
        some (cursorStringOf lastStory.story)
      else none
  { stories := stories.take limit
    has_more := decide (limit < stories.length) || hmdb
    next_cursor := next_cursor }

/-- get_stories from the source: over-fetching keyset pagination (3x limit
per SQL batch) with Python-side blocked-word filtering, URL deduplication and
scoring, followed by the page assembly of buildPage. -/
def get_stories (db : Db) (opts : StoriesQueryOpts) (limit : Nat)
    (cursor : Option (Nat × Nat)) (sort : SortOrder) : StoriesPage :=
  buildPage limit (fetchLoop db opts sort limit (limit * 3)
    (db.stories.length + 1) cursor [] [] true)

/-! ### Concrete states used to instantiate the theorems -/

/-- Story row with the schema defaults, the base of the concrete fixtures. -/
def storyFix : Story :=
  { id := 1, title := [], url := none, domain := none, author := none,
    time := 0, score := 0, descendants := 0, content := none,
    content_status := ContentStatus.pending, content_attempts := 0,
    content_source := none, browser_ms := 0, hit_front_page := false,
    front_page_rank := none, teaser := none, created_at := 0, updated_at := 0 }

/-- Store with every table empty. -/
def dbEmpty : Db :=
  { stories := [], fetched_urls := [], usage_log := [], read_later := [],
    dismissed := [], history := [], blocked_domains := [], blocked_words := [],
    merit_words := [], demerit_words := [], merit_domains := [],
    demerit_domains := [] }

/-- Store holding one story dismissed at epoch 0. -/
def dbDismissCleanup : Db :=
  { dbEmpty with
    stories := [ { storyFix with id := 1, time := 500000 } ],
    dismissed := [ { story_id := 1, created_at := 0 } ] }

/-- Store holding one story being fetched, its teaser still NULL. -/
def dbTeaser : Db :=
  { dbEmpty with
    stories := [ { storyFix with
                     id := 1, url := some [ 'u' ],
                     content_status := ContentStatus.fetching,
                     content_attempts := 1 } ] }

/-- Store holding one pending story whose URL already sits in the URL cache
with 100 billed ms. -/
def dbCacheHit : Db :=
  { dbEmpty with
    stories := [ { storyFix with id := 1, url := some [ 'u' ], time := 10 } ],
    fetched_urls := [ { url := [ 'u' ], content := some [ 'c' ],
                          content_source := some [ 'c', 'f' ], browser_ms := 100,
                          fetched_at := 1 } ] }

/-- Store with one eligible claim candidate among a retry-worn story and a
URL-less story. -/
def dbClaimFix : Db :=
  { dbEmpty with stories :=
      [ { storyFix with
          id := 5, time := 50, url := some [ 'x' ],
          content_attempts := 1, content_status := ContentStatus.retry },
        { storyFix with id := 6, time := 40, url := some [ 'y' ] },
        { storyFix with id := 7, time := 30 } ] }

/-- Store holding one story with NULL content. -/
def dbSelfText : Db := { dbEmpty with stories := [ { storyFix with id := 1 } ] }

/-- Self-text story dict (falsy url, truthy text) colliding with the story
of dbSelfText. -/
def sdSelfText : StoryDict :=
  { id := 1, title := [ 't' ], url := none, text := some [ 'h', 'i' ],
    domain := none, author := none, time := 3, score := 5, descendants := 2 }

/-- Store with a single listable story (final-page pagination scenario). -/
def dbPageA : Db :=
  { dbEmpty with stories :=
      [ { storyFix with id := 1, time := 10, url := some [ 'a' ] } ] }

/-- Store with two listable stories (short-batch has_more scenario). -/
def dbPageB : Db :=
  { dbEmpty with stories :=
      [ { storyFix with id := 1, time := 10, url := some [ 'a' ] },
        { storyFix with id := 2, time := 20, url := some [ 'b' ] } ] }

/-- Listing options used by the pagination scenarios: exclude dismissed,
blocked and read-later rows. -/
def optsPlain : StoriesQueryOpts :=
  { dismissed_only := false, include_blocked := false, include_read_later := false }

/-- Filter stated by the pagination claim: the story passes the
dismissed/blocked/read-later and blocked-word filters of the listing. -/
def passesListingFilters (db : Db) (opts : StoriesQueryOpts) (s : Story) : Bool :=
  (if opts.dismissed_only then isDismissedIn db s.id else ! isDismissedIn db s.id) &&
  (opts.include_blocked || ! isDomainBlockedIn db s.domain) &&
  (opts.include_read_later || ! isReadLaterIn db s.id) &&
  ! (! opts.include_blocked &&
      db.blocked_words.any (fun bw => subSearch (pyLower bw) (pyLower s.title)))

/-- Job returned by the claim on dbCacheHit. -/
def cacheHitJob : ClaimedJob :=
  { id := 1, url := [ 'u' ], domain := none, content_attempts := 1 }

/-- Store state of dbCacheHit after the claim. -/
def dbCacheHitMid : Db := (claim_next_content_job dbCacheHit 2 3).2

/-- Store state of dbCacheHit after the worker's URL-cache branch. -/
def dbCacheHitFinal : Option Db := worker_cache_step idZlib dbCacheHitMid 3 cacheHitJob

/-- The eligible claim candidate of dbClaimFix that the order selects. -/
def claimTarget : Story := { storyFix with id := 6, time := 40, url := some [ 'y' ] }

/-- Invariant of the content queue: every story has at most MAX_RETRIES (3)
fetch attempts. -/
def AttemptsInv (db : Db) : Prop := ∀ s ∈ db.stories, s.content_attempts ≤ 3

/-- Primary-key invariant of the stories table: ids are unique. -/
def PkNodup (db : Db) : Prop := (db.stories.map (fun s => s.id)).Nodup

instance (db : Db) : Decidable (AttemptsInv db) := by
  unfold AttemptsInv; infer_instance

instance (db : Db) : Decidable (PkNodup db) := by
  unfold PkNodup; infer_instance

/-! ### Shared helper lemmas -/

theorem toNat_ofNat_valid (n : Nat) (h : n.isValidChar) : (Char.ofNat n).toNat = n := by
  unfold Char.ofNat
  rw [dif_pos h]
  rfl

theorem charLower_idem (c : Char) : charLower (charLower c) = charLower c := by
  unfold charLower
  by_cases h : 65 ≤ c.toNat ∧ c.toNat ≤ 90
  · rw [if_pos h]
    have hv : (c.toNat + 32).isValidChar := Or.inl (by omega)
    have ht : (Char.ofNat (c.toNat + 32)).toNat = c.toNat + 32 := toNat_ofNat_valid _ hv
    rw [if_neg]
    omega
  · rw [if_neg h, if_neg h]

theorem pyLower_idem (s : Str) : pyLower (pyLower s) = pyLower s := by
  unfold pyLower
  rw [List.map_map]
  exact List.map_congr_left (fun c _ => charLower_idem c)

theorem subSearch_iff (p : Str) (s : Str) : subSearch p s = true ↔ p <:+: s := by
  induction s with
  | nil =>
    simp [subSearch, List.infix_nil, List.isEmpty_iff]
  | cons a s ih =>
    simp [subSearch, List.infix_cons_iff, ih, List.isPrefixOf_iff_prefix,
      Bool.or_eq_true]

theorem blockingSearch_iff (s : Str) :
    blockingSearch s = true ↔ ∃ p ∈ BLOCKING_PATTERNS, p <:+: pyLower s := by
  simp [blockingSearch, List.any_eq_true, subSearch_iff]

theorem blocking_patterns_ne_nil : ∀ p ∈ BLOCKING_PATTERNS, p ≠ [] := by decide

/-! ### Claim C1 -/

/-- Claim C1 evaluation at the failing input: a store holding one story whose
dismissal marker is 24 hours past the horizon; cleanup_stories deletes the
story and, contrary to the claim, its dismissed row as well (the child-table
delete removes the marker long before the 60-day marker horizon). -/
theorem c1_cleanup_deletes_dismissal_marker :
    dbDismissCleanup.dismissed = [ { story_id := 1, created_at := 0 } ] ∧
    (cleanup_stories dbDismissCleanup 1000000 24 14 90).stories = [] ∧
    (cleanup_stories dbDismissCleanup 1000000 24 14 90).dismissed = [] := by
  refine ⟨rfl, ?_, ?_⟩ <;> rfl

/-! ### Claim C2 -/

/-- Claim C2 evaluation at the failing input: complete_content_job writes
content "hi" to a story whose stored teaser is NULL, and the stored teaser
stays NULL instead of becoming the required teaser of "hi" (the UPDATE of
complete_content_job does not list the teaser column). -/
theorem c2_complete_content_job_stale_teaser :
    ((complete_content_job idZlib dbTeaser 5 1 (some [ 'h', 'i' ])
        ContentStatus.done (some [ 'c', 'f' ]) 7).stories.map
        (fun s => s.teaser)) = [ none ] ∧
    teaserOf [ 'h', 'i' ] = [ 'h', 'i' ] ∧
    (none : Option Str) ≠ some (teaserOf [ 'h', 'i' ]) := by
  refine ⟨rfl, rfl, by decide⟩

/-! ### Claim C9 -/

/-- Claim C9: detect_blocking returns true exactly when either the content is
shorter than 200 characters and some blocking pattern occurs
case-insensitively in it, or the content has at least 200 characters, some
pattern occurs case-insensitively in its first 2000 characters, and the total
length is at most 3000. -/
theorem c9_detect_blocking_iff (c : Str) :
    detect_blocking c = true ↔
      ((c.length < 200 ∧ ∃ p ∈ BLOCKING_PATTERNS, p <:+: pyLower c) ∨
       (200 ≤ c.length ∧ (∃ p ∈ BLOCKING_PATTERNS, p <:+: pyLower (c.take 2000)) ∧
        c.length ≤ 3000)) := by
  unfold detect_blocking MIN_CONTENT_LENGTH
  by_cases hc : c = []
  · subst hc
    simp only [if_pos rfl]
    constructor
    · intro h
      exact absurd h (by decide)
    · intro h
      rcases h with ⟨_, p, hp, hinf⟩ | ⟨h200, _⟩
      · have hpn : p = [] := List.infix_nil.mp (by simpa [pyLower] using hinf)
        exact absurd hpn (blocking_patterns_ne_nil p hp)
      · simp at h200
  · rw [if_neg hc]
    by_cases hlen : c.length < 200
    · rw [if_pos hlen]
      rw [blockingSearch_iff _]
      constructor
      · intro h
        exact Or.inl ⟨hlen, h⟩
      · intro h
        rcases h with ⟨_, h⟩ | ⟨h200, _⟩
        · exact h
        · omega
    · rw [if_neg hlen]
      have hchunk : (∃ p ∈ BLOCKING_PATTERNS, p <:+: pyLower (pyLower (c.take 2000))) ↔
          ∃ p ∈ BLOCKING_PATTERNS, p <:+: pyLower (c.take 2000) := by
        rw [pyLower_idem]
      by_cases hs : blockingSearch (pyLower (c.take 2000)) = true
      · rw [if_pos hs]
        have hfound := hchunk.mp ((blockingSearch_iff _).mp hs)
        by_cases h3k : 3000 < c.length
        · rw [if_pos h3k]
          constructor
          · intro h
            exact absurd h (by decide)
          · intro h
            rcases h with ⟨hl, _⟩ | ⟨_, _, hle⟩
            · omega
            · omega
        · rw [if_neg h3k]
          constructor
          · intro _
            exact Or.inr ⟨by omega, hfound, by omega⟩
          · intro _
            rfl
      · rw [if_neg hs]
        constructor
        · intro h
          exact absurd h (by decide)
        · intro h
          rcases h with ⟨hl, _⟩ | ⟨_, hfound, _⟩
          · omega
          · exact absurd ((blockingSearch_iff _).mpr (hchunk.mpr hfound)) hs

/-! ### Claim C10 -/

/-- Claim C10: dismiss_story records a dismissal for every id (the dismissed
table has no foreign key), while add_read_later raises the foreign-key
violation exactly when the id has no stories row (in every store whose
read_later table satisfies the enforced foreign-key invariant). -/
theorem c10_dismiss_vs_readlater_fk :
    (∀ (db : Db) (now sid : Nat),
      (dismiss_story db now sid).dismissed.any (fun d => d.story_id = sid) = true) ∧
    (∀ (db : Db) (now sid : Nat),
      (∀ r ∈ db.read_later, ∃ s ∈ db.stories, s.id = r.story_id) →
      (add_read_later db now sid = Except.error FkViolation.readLaterFk ↔
        ¬ ∃ s ∈ db.stories, s.id = sid)) := by
  constructor
  · intro db now sid
    unfold dismiss_story
    by_cases h : db.dismissed.any (fun d => decide (d.story_id = sid)) = true
    · rw [if_pos h]
      exact h
    · rw [if_neg h]
      simp [List.any_append]
  · intro db now sid hfk
    unfold add_read_later
    by_cases hrl : db.read_later.any (fun r => decide (r.story_id = sid)) = true
    · rw [if_pos hrl]
      simp only [List.any_eq_true, decide_eq_true_eq] at hrl
      obtain ⟨r, hr, hrid⟩ := hrl
      obtain ⟨s, hs, hsid⟩ := hfk r hr
      constructor
      · intro h
        exact absurd h (by simp)
      · intro h
        exact absurd ⟨s, hs, by omega⟩ h
    · rw [if_neg hrl]
      by_cases hst : db.stories.any (fun s => decide (s.id = sid)) = true
      · rw [if_pos hst]
        simp only [List.any_eq_true, decide_eq_true_eq] at hst
        constructor
        · intro h
          exact absurd h (by simp)
        · intro h
          exact absurd hst h
      · rw [if_neg hst]
        simp only [List.any_eq_true, decide_eq_true_eq] at hst
        constructor
        · intro _
          exact hst
        · intro _
          rfl

/-- Claim C10 witness: on the empty store, dismissing id 42 succeeds and
leaves a dismissal row, while adding id 42 to read-later raises the
foreign-key violation. -/
theorem c10_witness :
    (dismiss_story dbEmpty 4 42).dismissed.any (fun d => d.story_id = 42) = true ∧
    add_read_later dbEmpty 4 42 = Except.error FkViolation.readLaterFk := by
  constructor
  · exact c10_dismiss_vs_readlater_fk.1 dbEmpty 4 42
  · exact (c10_dismiss_vs_readlater_fk.2 dbEmpty 4 42 (by simp [dbEmpty])).mpr
      (by simp [dbEmpty])

/-! ### Claim C8: compression round-trip -/

theorem b64IndexOf_b64CharOf : ∀ k, k < 64 → b64IndexOf (b64CharOf k) = some k := by
  decide

theorem b64CharOf_ne_pad : ∀ k, k < 64 → b64CharOf k ≠ '=' := by
  decide

theorem b64Decode_block (k0 k1 k2 k3 : Nat) (h0 : k0 < 64) (h1 : k1 < 64)
    (h2 : k2 < 64) (h3 : k3 < 64) (rest : Str) :
    b64Decode (b64CharOf k0 :: b64CharOf k1 :: b64CharOf k2 :: b64CharOf k3 :: rest) =
      match b64Decode rest with
      | some bs => some ((k0 * 262144 + k1 * 4096 + k2 * 64 + k3) / 65536 ::
          (k0 * 262144 + k1 * 4096 + k2 * 64 + k3) / 256 % 256 ::
          (k0 * 262144 + k1 * 4096 + k2 * 64 + k3) % 256 :: bs)
      | none => none := by
  rw [b64Decode.eq_1]
  simp only [b64IndexOf_b64CharOf _ h0, b64IndexOf_b64CharOf _ h1,
    b64IndexOf_b64CharOf _ h2, b64IndexOf_b64CharOf _ h3,
    eq_false (b64CharOf_ne_pad _ h2), eq_false (b64CharOf_ne_pad _ h3),
    if_false]

theorem b64Decode_pad2 (k0 k1 : Nat) (h0 : k0 < 64) (h1 : k1 < 64) :
    b64Decode [b64CharOf k0, b64CharOf k1, '=', '='] = some [k0 * 4 + k1 / 16] := by
  rw [b64Decode.eq_1]
  simp only [b64IndexOf_b64CharOf _ h0, b64IndexOf_b64CharOf _ h1]
  simp

theorem b64Decode_pad1 (k0 k1 k2 : Nat) (h0 : k0 < 64) (h1 : k1 < 64) (h2 : k2 < 64) :
    b64Decode [b64CharOf k0, b64CharOf k1, b64CharOf k2, '='] =
      some [k0 * 4 + k1 / 16, k1 % 16 * 16 + k2 / 4] := by
  rw [b64Decode.eq_1]
  simp only [b64IndexOf_b64CharOf _ h0, b64IndexOf_b64CharOf _ h1,
    b64IndexOf_b64CharOf _ h2, eq_false (b64CharOf_ne_pad _ h2), if_false]
  simp

theorem b64_roundtrip : ∀ (bs : List Nat), (∀ x ∈ bs, x < 256) →
    b64Decode (b64Encode bs) = some bs
  | [], _ => rfl
  | [b0], h => by
    have hb0 : b0 < 256 := h b0 (by simp)
    show b64Decode [b64CharOf (b0 * 65536 / 262144),
      b64CharOf (b0 * 65536 / 4096 % 64), '=', '='] = some [b0]
    rw [b64Decode_pad2 _ _ (by omega) (by omega)]
    simp only [Option.some.injEq, List.cons.injEq, and_true]
    omega
  | [b0, b1], h => by
    have hb0 : b0 < 256 := h b0 (by simp)
    have hb1 : b1 < 256 := h b1 (by simp)
    show b64Decode [b64CharOf ((b0 * 65536 + b1 * 256) / 262144),
      b64CharOf ((b0 * 65536 + b1 * 256) / 4096 % 64),
      b64CharOf ((b0 * 65536 + b1 * 256) / 64 % 64), '='] = some [b0, b1]
    rw [b64Decode_pad1 _ _ _ (by omega) (by omega) (by omega)]
    simp only [Option.some.injEq, List.cons.injEq, and_true]
    exact ⟨by omega, by omega⟩
  | b0 :: b1 :: b2 :: rest, h => by
    have hb0 : b0 < 256 := h b0 (by simp)
    have hb1 : b1 < 256 := h b1 (by simp)
    have hb2 : b2 < 256 := h b2 (by simp)
    have ih := b64_roundtrip rest (fun x hx => h x (by simp [hx]))
    show b64Decode (b64CharOf ((b0 * 65536 + b1 * 256 + b2) / 262144) ::
      b64CharOf ((b0 * 65536 + b1 * 256 + b2) / 4096 % 64) ::
      b64CharOf ((b0 * 65536 + b1 * 256 + b2) / 64 % 64) ::
      b64CharOf ((b0 * 65536 + b1 * 256 + b2) % 64) :: b64Encode rest) =
        some (b0 :: b1 :: b2 :: rest)
    rw [b64Decode_block _ _ _ _ (by omega) (by omega) (by omega) (by omega), ih]
    simp only [Option.some.injEq, List.cons.injEq, and_true]
    exact ⟨by omega, by omega, by omega⟩

theorem char_toNat_valid (c : Char) : c.toNat.isValidChar := c.valid

theorem char_toNat_lt (c : Char) : c.toNat < 1114112 := by
  rcases char_toNat_valid c with h | h
  · omega
  · omega

theorem utf8EncodeCp_lt256 (c : Char) : ∀ x ∈ utf8EncodeCp c.toNat, x < 256 := by
  have hlt := char_toNat_lt c
  unfold utf8EncodeCp
  by_cases h1 : c.toNat < 128
  · rw [if_pos h1]
    intro x hx
    simp at hx
    omega
  · rw [if_neg h1]
    by_cases h2 : c.toNat < 2048
    · rw [if_pos h2]
      intro x hx
      simp at hx
      rcases hx with hx | hx <;> omega
    · rw [if_neg h2]
      by_cases h3 : c.toNat < 65536
      · rw [if_pos h3]
        intro x hx
        simp at hx
        rcases hx with hx | hx | hx <;> omega
      · rw [if_neg h3]
        intro x hx
        simp at hx
        rcases hx with hx | hx | hx | hx <;> omega

theorem utf8Encode_lt256 (s : Str) : ∀ x ∈ utf8Encode s, x < 256 := by
  intro x hx
  unfold utf8Encode at hx
  rw [List.mem_flatten] at hx
  obtain ⟨l, hl, hxl⟩ := hx
  rw [List.mem_map] at hl
  obtain ⟨c, _, rfl⟩ := hl
  exact utf8EncodeCp_lt256 c x hxl

theorem utf8Step_cons (b0 : Nat) (rest : List Nat) :
    utf8Step (b0 :: rest) =
      (if b0 < 128 then some (b0, rest)
       else if b0 < 192 then none
       else if b0 < 224 then
         match rest with
         | b1 :: rest1 =>
           match utf8Dec2 b0 b1 with
           | some n => some (n, rest1)
           | none => none
         | [] => none
       else if b0 < 240 then
         match rest with
         | b1 :: b2 :: rest2 =>
           match utf8Dec3 b0 b1 b2 with
           | some n => some (n, rest2)
           | none => none
         | _ => none
       else if b0 < 248 then
         match rest with
         | b1 :: b2 :: b3 :: rest3 =>
           match utf8Dec4 b0 b1 b2 b3 with
           | some n => some (n, rest3)
           | none => none
         | _ => none
       else none) := rfl

theorem utf8Dec2_val (n : Nat) (h1 : 128 ≤ n) (h2 : n < 2048) :
    utf8Dec2 (192 + n / 64) (128 + n % 64) = some n := by
  unfold utf8Dec2
  rw [if_pos (by constructor <;> omega)]
  simp only []
  rw [show (192 + n / 64 - 192) * 64 + (128 + n % 64 - 128) = n from by omega]
  rw [if_neg (by omega)]

theorem utf8Dec3_val (n : Nat) (h1 : 2048 ≤ n) (h2 : n < 65536)
    (hsur : ¬ (55296 ≤ n ∧ n < 57344)) :
    utf8Dec3 (224 + n / 4096) (128 + n / 64 % 64) (128 + n % 64) = some n := by
  unfold utf8Dec3
  rw [if_pos (by refine ⟨⟨by omega, by omega⟩, by omega, by omega⟩)]
  simp only []
  rw [show (224 + n / 4096 - 224) * 4096 + (128 + n / 64 % 64 - 128) * 64 +
    (128 + n % 64 - 128) = n from by omega]
  rw [if_neg (by omega), if_neg hsur]

theorem utf8Dec4_val (n : Nat) (h1 : 65536 ≤ n) (h2 : n < 1114112) :
    utf8Dec4 (240 + n / 262144) (128 + n / 4096 % 64) (128 + n / 64 % 64)
      (128 + n % 64) = some n := by
  unfold utf8Dec4
  rw [if_pos (by refine ⟨⟨by omega, by omega⟩, ⟨by omega, by omega⟩, by omega, by omega⟩)]
  simp only []
  rw [show (240 + n / 262144 - 240) * 262144 + (128 + n / 4096 % 64 - 128) * 4096 +
    (128 + n / 64 % 64 - 128) * 64 + (128 + n % 64 - 128) = n from by omega]
  rw [if_neg (by omega), if_neg (by omega)]

theorem utf8Step_encodeCp (n : Nat) (hv : n.isValidChar) (rest : List Nat) :
    utf8Step (utf8EncodeCp n ++ rest) = some (n, rest) := by
  have hlt : n < 1114112 := by rcases hv with h | h <;> omega
  have hsur : ¬ (55296 ≤ n ∧ n < 57344) := by rcases hv with h | h <;> omega
  unfold utf8EncodeCp
  by_cases hc1 : n < 128
  · rw [if_pos hc1]
    simp only [List.cons_append, List.nil_append]
    rw [utf8Step_cons, if_pos hc1]
  · rw [if_neg hc1]
    by_cases hc2 : n < 2048
    · rw [if_pos hc2]
      simp only [List.cons_append, List.nil_append]
      rw [utf8Step_cons, if_neg (by omega), if_neg (by omega), if_pos (by omega)]
      simp only [utf8Dec2_val n (by omega) hc2]
    · rw [if_neg hc2]
      by_cases hc3 : n < 65536
      · rw [if_pos hc3]
        simp only [List.cons_append, List.nil_append]
        rw [utf8Step_cons, if_neg (by omega), if_neg (by omega), if_neg (by omega),
          if_pos (by omega)]
        simp only [utf8Dec3_val n (by omega) hc3 hsur]
      · rw [if_neg hc3]
        simp only [List.cons_append, List.nil_append]
        rw [utf8Step_cons, if_neg (by omega), if_neg (by omega), if_neg (by omega),
          if_neg (by omega), if_pos (by omega)]
        simp only [utf8Dec4_val n (by omega) hlt]

theorem utf8EncodeCp_ne_nil (n : Nat) : utf8EncodeCp n ≠ [] := by
  unfold utf8EncodeCp
  by_cases h1 : n < 128
  · simp [h1]
  · by_cases h2 : n < 2048
    · simp [h1, h2]
    · by_cases h3 : n < 65536
      · simp [h1, h2, h3]
      · simp [h1, h2, h3]

theorem utf8DecodeAux_roundtrip : ∀ (s : Str) (fuel : Nat),
    (utf8Encode s).length ≤ fuel → utf8DecodeAux fuel (utf8Encode s) = some s := by
  intro s
  induction s with
  | nil =>
    intro fuel _
    show utf8DecodeAux fuel [] = some []
    cases fuel <;> rfl
  | cons c cs ih =>
    intro fuel hf
    have henc : utf8Encode (c :: cs) = utf8EncodeCp c.toNat ++ utf8Encode cs := by
      simp [utf8Encode]
    rw [henc] at hf ⊢
    obtain ⟨b0, t, hsplit⟩ : ∃ b0 t, utf8EncodeCp c.toNat ++ utf8Encode cs = b0 :: t := by
      cases hh : utf8EncodeCp c.toNat with
      | nil => exact absurd hh (utf8EncodeCp_ne_nil c.toNat)
      | cons x xs => exact ⟨x, xs ++ utf8Encode cs, by simp [hh]⟩
    have hlen1 : 1 ≤ (utf8EncodeCp c.toNat).length := by
      cases hh : utf8EncodeCp c.toNat with
      | nil => exact absurd hh (utf8EncodeCp_ne_nil c.toNat)
      | cons x xs => simp
    have hfuel : ∃ f, fuel = f + 1 := by
      rw [hsplit] at hf
      cases fuel with
      | zero => simp at hf
      | succ f => exact ⟨f, rfl⟩
    obtain ⟨f, rfl⟩ := hfuel
    rw [hsplit]
    rw [utf8DecodeAux]
    rw [← hsplit, utf8Step_encodeCp c.toNat c.valid]
    simp only []
    have hlen2 : (utf8Encode cs).length ≤ f := by
      have htot : (utf8EncodeCp c.toNat).length + (utf8Encode cs).length ≤ f + 1 := by
        simpa using hf
      omega
    rw [ih f hlen2]
    simp

theorem utf8_roundtrip (s : Str) : utf8Decode (utf8Encode s) = some s :=
  utf8DecodeAux_roundtrip s _ le_rfl

/-- Claim C8: for every lawful zlib codec, decompress_content inverts
compress_content on every non-empty string, and decompress_content returns
every string without the "z:" marker unchanged. -/
theorem c8_compression_roundtrip :
    (∀ z : ZlibCodec, z.Lawful → ∀ x : Str, x ≠ [] →
      decompress_content z (compress_content z x) = x) ∧
    (∀ (z : ZlibCodec) (x : Str), compressMarker.isPrefixOf x = false →
      decompress_content z x = x) := by
  constructor
  · intro z hz x hx
    unfold compress_content decompress_content
    rw [if_neg hx]
    have hne : compressMarker ++ b64Encode (z.compress (utf8Encode x)) ≠ [] := by
      simp [compressMarker]
    rw [if_neg hne]
    have hpref : compressMarker.isPrefixOf
        (compressMarker ++ b64Encode (z.compress (utf8Encode x))) = true :=
      List.isPrefixOf_iff_prefix.mpr (List.prefix_append _ _)
    rw [if_neg (by simp [hpref])]
    simp only [compressMarker, List.cons_append, List.nil_append,
      List.drop_succ_cons, List.drop_zero]
    simp only [b64_roundtrip _ (hz.2 _ (utf8Encode_lt256 x)), hz.1, utf8_roundtrip]
  · intro z x hpref
    unfold decompress_content
    by_cases hx : x = []
    · rw [if_pos hx]
    · rw [if_neg hx, if_pos (by simp [hpref])]

/-- Claim C8 witness: the identity codec is lawful, "hi" round-trips through
compress_content and decompress_content, and "p" (no "z:" marker) passes
decompress_content unchanged. -/
theorem c8_witness :
    ZlibCodec.Lawful idZlib ∧
    decompress_content idZlib (compress_content idZlib [ 'h', 'i' ]) = [ 'h', 'i' ] ∧
    decompress_content idZlib [ 'p' ] = [ 'p' ] := by
  have hl : ZlibCodec.Lawful idZlib := ⟨fun _ => rfl, fun _ h x hx => h x hx⟩
  exact ⟨hl, c8_compression_roundtrip.1 idZlib hl [ 'h', 'i' ] (by decide),
    c8_compression_roundtrip.2 idZlib [ 'p' ] (by decide)⟩

/-! ### Claim C3 -/

/-- Claim C3 counterexample: on dbCacheHit the worker claims story 1, finds
its URL in the cache (cached browser_ms 100), completes it as done with the
cached payload and appends no usage_log row | but the story's browser_ms
column ends at 100, not 0 as the claim states. -/
theorem c3_counterexample_browser_ms :
    (claim_next_content_job dbCacheHit 2 3).1 = some cacheHitJob ∧
    get_cached_content dbCacheHitMid cacheHitJob.url ≠ none ∧
    (dbCacheHitFinal.map (fun db =>
      db.stories.map (fun s => (s.content_status, s.browser_ms)))) =
        some [(ContentStatus.done, 100)] ∧
    (dbCacheHitFinal.map (fun db => db.usage_log)) = some [] ∧
    (100 : Nat) ≠ 0 := by
  refine ⟨rfl, by decide, rfl, rfl, by decide⟩

/-- Claim C3 as amended: when a claimed job's URL hits the cache, the worker
completes it with status done, the compressed cached payload and the cached
source tag, appends no usage_log entry, and the story row's browser_ms column
equals the cached browser_ms (not necessarily 0). -/
theorem c3_cache_hit_path (z : ZlibCodec) (db db1 : Db) (now now2 maxA : Nat)
    (job : ClaimedJob) (cached : CachedContent)
    (hclaim : claim_next_content_job db now maxA = (some job, db1))
    (hcache : get_cached_content db1 job.url = some cached) :
    ∃ db2, worker_cache_step z db1 now2 job = some db2 ∧
      db2.usage_log = db.usage_log ∧
      db2.fetched_urls = db1.fetched_urls ∧
      ∀ t ∈ db1.stories, t.id = job.id →
        { t with
          content := match cached.content with
            | some c => if c = [] then some c else some (compress_content z c)
            | none => none
          content_status := ContentStatus.done
          content_source := cached.source
          browser_ms := cached.browser_ms
          updated_at := now2 } ∈ db2.stories := by
  have husage : db1.usage_log = db.usage_log := by
    unfold claim_next_content_job at hclaim
    cases hsel : selectJob db.stories maxA with
    | none =>
      rw [hsel] at hclaim
      exact absurd (congrArg Prod.fst hclaim) (by simp)
    | some s =>
      rw [hsel] at hclaim
      have hdb : db1 = { db with stories := db.stories.map (fun t =>
          if t.id = s.id then
            { t with content_status := ContentStatus.fetching,
                     content_attempts := t.content_attempts + 1,
                     updated_at := now }
          else t) } := (congrArg Prod.snd hclaim).symm
      rw [hdb]
  refine ⟨complete_content_job z db1 now2 job.id cached.content ContentStatus.done
    cached.source cached.browser_ms, ?_, ?_, ?_, ?_⟩
  · unfold worker_cache_step
    rw [hcache]
  · exact husage
  · rfl
  · intro t ht htid
    unfold complete_content_job
    simp only []
    refine List.mem_map.mpr ⟨t, ht, ?_⟩
    rw [if_pos htid]

/-- Claim C3 witness: the amended cache-hit path instantiated on dbCacheHit. -/
theorem c3_witness :
    ∃ db2, worker_cache_step idZlib dbCacheHitMid 3 cacheHitJob = some db2 ∧
      db2.usage_log = dbCacheHit.usage_log ∧
      db2.fetched_urls = dbCacheHitMid.fetched_urls ∧
      ∀ t ∈ dbCacheHitMid.stories, t.id = cacheHitJob.id →
        { t with
          content := match (some [ 'c' ] : Option Str) with
            | some c => if c = [] then some c else some (compress_content idZlib c)
            | none => none
          content_status := ContentStatus.done
          content_source := some [ 'c', 'f' ]
          browser_ms := 100
          updated_at := 3 } ∈ db2.stories :=
  c3_cache_hit_path idZlib dbCacheHit dbCacheHitMid 2 3 3 cacheHitJob
    { content := some [ 'c' ], source := some [ 'c', 'f' ], browser_ms := 100 }
    rfl rfl

/-! ### Claim C6 -/

/-- Claim C6 counterexample: upserting the self-text dict sdSelfText onto the
existing story of dbSelfText (whose content is NULL) changes content_status
from pending to done and content_source from NULL to hn_text, which the claim
says are left unchanged on conflict. -/
theorem c6_counterexample_selftext_fill :
    dbSelfText.stories.map (fun s => (s.content_status, s.content_source, s.content)) =
      [(ContentStatus.pending, none, none)] ∧
    (upsert_story idZlib dbSelfText 7 sdSelfText).stories.map
        (fun s => (s.content_status, s.content_source)) =
      [(ContentStatus.done, some [ 'h', 'n', '_', 't', 'e', 'x', 't' ])] := by
  exact ⟨rfl, rfl⟩

/-- Claim C6 as amended: an upsert conflicting with an existing row updates
score, descendants and updated_at, leaves title, url, domain, author, time,
content_attempts, browser_ms, hit_front_page, front_page_rank, teaser and
created_at unchanged, leaves content, content_status and content_source
unchanged whenever the stored content is non-NULL or the dict is not a
self-text story, and fills content (compressed text), status done and source
hn_text when a self-text dict hits a row whose stored content is NULL; rows
with other ids are untouched. -/
theorem c6_upsert_conflict_frame (z : ZlibCodec) (db : Db) (now : Nat)
    (sd : StoryDict) (t : Story) (ht : t ∈ db.stories) (htid : t.id = sd.id) :
    (∀ u ∈ db.stories, u.id ≠ sd.id → u ∈ (upsert_story z db now sd).stories) ∧
    ∃ t', t' ∈ (upsert_story z db now sd).stories ∧
      t'.id = t.id ∧ t'.title = t.title ∧ t'.url = t.url ∧ t'.domain = t.domain ∧
      t'.author = t.author ∧ t'.time = t.time ∧
      t'.score = sd.score ∧ t'.descendants = sd.descendants ∧
      t'.content_attempts = t.content_attempts ∧
      t'.browser_ms = t.browser_ms ∧ t'.hit_front_page = t.hit_front_page ∧
      t'.front_page_rank = t.front_page_rank ∧ t'.teaser = t.teaser ∧
      t'.created_at = t.created_at ∧ t'.updated_at = now ∧
      ((((optStrFalsy sd.url = true ∧ ¬ optStrFalsy sd.text = true)) ∧ t.content = none) →
        t'.content = some (compress_content z (sd.text.getD [])) ∧
        t'.content_status = ContentStatus.done ∧
        t'.content_source = some [ 'h', 'n', '_', 't', 'e', 'x', 't' ]) ∧
      ((¬ (optStrFalsy sd.url = true ∧ ¬ optStrFalsy sd.text = true) ∨ t.content ≠ none) →
        t'.content = t.content ∧ t'.content_status = t.content_status ∧
        t'.content_source = t.content_source) := by
  have hany : db.stories.any (fun x => decide (x.id = sd.id)) = true :=
    List.any_eq_true.mpr ⟨t, ht, by simp [htid]⟩
  unfold upsert_story
  by_cases hst : optStrFalsy sd.url = true ∧ ¬ optStrFalsy sd.text = true
  · rw [if_pos hst, if_pos hany]
    constructor
    · intro u hu huid
      refine List.mem_map.mpr ⟨u, hu, ?_⟩
      rw [if_neg huid]
    · refine ⟨_, List.mem_map.mpr ⟨t, ht, rfl⟩, ?_⟩
      rw [if_pos htid]
      cases hc : t.content with
      | none =>
        refine ⟨rfl, rfl, rfl, rfl, rfl, rfl, rfl, rfl, rfl, rfl, rfl, rfl, rfl,
          rfl, rfl, fun _ => ⟨rfl, rfl, rfl⟩, fun hn => ?_⟩
        rcases hn with hn | hn
        · exact absurd hst hn
        · exact absurd rfl hn
      | some c =>
        exact ⟨rfl, rfl, rfl, rfl, rfl, rfl, rfl, rfl, rfl, rfl, rfl, rfl, rfl,
          rfl, rfl, fun hcontra => absurd hcontra.2 (by simp), fun _ => ⟨rfl, rfl, rfl⟩⟩
  · rw [if_neg hst, if_pos hany]
    constructor
    · intro u hu huid
      refine List.mem_map.mpr ⟨u, hu, ?_⟩
      rw [if_neg huid]
    · refine ⟨_, List.mem_map.mpr ⟨t, ht, rfl⟩, ?_⟩
      rw [if_pos htid]
      exact ⟨rfl, rfl, rfl, rfl, rfl, rfl, rfl, rfl, rfl, rfl, rfl, rfl, rfl,
        rfl, rfl, fun hcontra => absurd hcontra.1 hst, fun _ => ⟨rfl, rfl, rfl⟩⟩

/-- Claim C6 witness: the amended conflict frame instantiated on dbSelfText
with the self-text dict sdSelfText. -/
theorem c6_witness :
    ∃ t', t' ∈ (upsert_story idZlib dbSelfText 7 sdSelfText).stories ∧
      t'.score = 5 ∧ t'.content_attempts = 0 ∧ t'.updated_at = 7 := by
  obtain ⟨-, t', hmem, -, -, -, -, -, -, hscore, -, hatt, -, -, -, -, -, hupd, -, -⟩ :=
    c6_upsert_conflict_frame idZlib dbSelfText 7 sdSelfText
      { storyFix with id := 1 } (by simp [dbSelfText]) rfl
  exact ⟨t', hmem, hscore, hatt, hupd⟩

/-! ### Claims C4 and C5: the atomic job claim -/

theorem jobKeyLt_trans (a b c : Story) :
    jobKeyLt a b = true → jobKeyLt b c = true → jobKeyLt a c = true := by
  unfold jobKeyLt
  simp only [decide_eq_true_eq]
  omega

theorem jobKeyLt_cotrans (a b c : Story) :
    jobKeyLt a b = false → jobKeyLt b c = false → jobKeyLt a c = false := by
  unfold jobKeyLt
  simp only [decide_eq_false_iff_not]
  omega

theorem jobKeyLt_irrefl (a : Story) : jobKeyLt a a = false := by
  unfold jobKeyLt
  simp only [decide_eq_false_iff_not]
  omega

theorem pickMin_acc_some (f : Story → Story → Bool) :
    ∀ (l : List Story) (t : Story), ∃ r, pickMin f (some t) l = some r := by
  intro l
  induction l with
  | nil => exact fun t => ⟨t, rfl⟩
  | cons s rest ih => exact fun t => ih (if f s t then s else t)

theorem pickMin_mem (f : Story → Story → Bool) :
    ∀ (l : List Story) (acc : Option Story) (r : Story),
      pickMin f acc l = some r → acc = some r ∨ r ∈ l := by
  intro l
  induction l with
  | nil =>
    intro acc r h
    cases acc with
    | none => exact absurd h (by simp [pickMin])
    | some t => exact Or.inl h
  | cons s rest ih =>
    intro acc r h
    cases acc with
    | none =>
      rcases ih (some s) r h with hl | hr
      · exact Or.inr (by simp [Option.some.inj hl])
      · exact Or.inr (List.mem_cons_of_mem s hr)
    | some t =>
      rcases ih (some (if f s t then s else t)) r h with hl | hr
      · by_cases hst : f s t = true
        · rw [if_pos hst] at hl
          exact Or.inr (by simp [Option.some.inj hl])
        · rw [if_neg hst] at hl
          exact Or.inl hl
      · exact Or.inr (List.mem_cons_of_mem s hr)

theorem pickMin_not_below (f : Story → Story → Bool)
    (htrans : ∀ a b c, f a b = true → f b c = true → f a c = true)
    (hcotrans : ∀ a b c, f a b = false → f b c = false → f a c = false)
    (hirr : ∀ a, f a a = false) :
    ∀ (l : List Story) (acc : Option Story) (r : Story),
      pickMin f acc l = some r →
        (∀ x ∈ l, f x r = false) ∧ (∀ t, acc = some t → f t r = false) := by
  intro l
  induction l with
  | nil =>
    intro acc r h
    refine ⟨by simp, fun t ht => ?_⟩
    cases acc with
    | none => simp at ht
    | some u =>
      have : u = r := Option.some.inj h
      have htu : t = u := (Option.some.inj ht).symm
      rw [htu, this]
      exact hirr r
  | cons s rest ih =>
    intro acc r h
    cases acc with
    | none =>
      obtain ⟨hrest, hacc⟩ := ih (some s) r h
      have hsr : f s r = false := hacc s rfl
      refine ⟨fun x hx => ?_, fun t ht => by simp at ht⟩
      rcases List.mem_cons.mp hx with rfl | hx
      · exact hsr
      · exact hrest x hx
    | some t =>
      obtain ⟨hrest, hacc⟩ := ih (some (if f s t then s else t)) r h
      by_cases hst : f s t = true
      · have hsr : f s r = false := by
          have := hacc (if f s t then s else t) rfl
          rwa [if_pos hst] at this
        have htr : f t r = false := by
          by_cases htr' : f t r = true
          · exact absurd (htrans s t r hst htr') (by simp [hsr])
          · simpa using htr'
        refine ⟨fun x hx => ?_, fun u hu => ?_⟩
        · rcases List.mem_cons.mp hx with rfl | hx
          · exact hsr
          · exact hrest x hx
        · rwa [Option.some.inj hu] at htr
      · have hst' : f s t = false := by simpa using hst
        have htr : f t r = false := by
          have := hacc (if f s t then s else t) rfl
          rwa [if_neg hst] at this
        have hsr : f s r = false := hcotrans s t r hst' htr
        refine ⟨fun x hx => ?_, fun u hu => ?_⟩
        · rcases List.mem_cons.mp hx with rfl | hx
          · exact hsr
          · exact hrest x hx
        · rwa [Option.some.inj hu] at htr

theorem selectJob_some_mem (stories : List Story) (maxAttempts : Nat) (r : Story)
    (h : selectJob stories maxAttempts = some r) :
    r ∈ stories ∧ EligibleJob maxAttempts r := by
  unfold selectJob at h
  rcases pickMin_mem jobKeyLt _ none r h with hl | hr
  · simp at hl
  · have := List.mem_filter.mp hr
    exact ⟨this.1, of_decide_eq_true this.2⟩

/-- Claim C4: claim_next_content_job returns None and leaves the store
unchanged when no story qualifies, and otherwise, whenever s is the unique
(status in pending/retry, url non-null, attempts below the bound) story
minimal under (content_attempts ASC, time ASC), it marks exactly that row
fetching with attempts incremented and returns its id, url, domain and
post-increment attempts. -/
theorem c4_claim_next_content_job (db : Db) (now maxAttempts : Nat) :
    ((∀ s ∈ db.stories, ¬ EligibleJob maxAttempts s) →
      claim_next_content_job db now maxAttempts = (none, db)) ∧
    (∀ s ∈ db.stories, EligibleJob maxAttempts s →
      (∀ t ∈ db.stories, t ≠ s → EligibleJob maxAttempts t →
        s.content_attempts < t.content_attempts ∨
          (s.content_attempts = t.content_attempts ∧ s.time < t.time)) →
      ∃ u, s.url = some u ∧
        claim_next_content_job db now maxAttempts =
          (some { id := s.id, url := u, domain := s.domain,
                  content_attempts := s.content_attempts + 1 },
           { db with stories := db.stories.map (fun t =>
               if t.id = s.id then
                 { t with content_status := ContentStatus.fetching,
                          content_attempts := t.content_attempts + 1,
                          updated_at := now }
               else t) })) := by
  constructor
  · intro hnone
    have hfilt : db.stories.filter (fun s => decide (EligibleJob maxAttempts s)) = [] := by
      rw [List.filter_eq_nil_iff]
      intro a ha
      simp only [decide_eq_true_eq]
      exact hnone a ha
    unfold claim_next_content_job selectJob
    rw [hfilt]
    rfl
  · intro s hs helig hmin
    have hsmem : s ∈ db.stories.filter (fun x => decide (EligibleJob maxAttempts x)) :=
      List.mem_filter.mpr ⟨hs, decide_eq_true helig⟩
    have hsel : selectJob db.stories maxAttempts = some s := by
      obtain ⟨r, hr⟩ : ∃ r, selectJob db.stories maxAttempts = some r := by
        unfold selectJob
        cases hfl : db.stories.filter (fun x => decide (EligibleJob maxAttempts x)) with
        | nil => rw [hfl] at hsmem; simp at hsmem
        | cons a rest => exact pickMin_acc_some jobKeyLt rest a
      obtain ⟨hrin, hrelig⟩ := selectJob_some_mem db.stories maxAttempts r hr
      have hfs : jobKeyLt s r = false := by
        have hnb := pickMin_not_below jobKeyLt jobKeyLt_trans jobKeyLt_cotrans
          jobKeyLt_irrefl _ none r hr
        exact hnb.1 s hsmem
      by_cases hrs : r = s
      · rw [hrs] at hr
        exact hr
      · exfalso
        have hbefore := hmin r hrin hrs hrelig
        have : jobKeyLt s r = true := by
          unfold jobKeyLt
          simp only [decide_eq_true_eq]
          omega
        simp [this] at hfs
    obtain ⟨-, hurl, -⟩ := helig
    cases hu : s.url with
    | none => exact absurd hu hurl
    | some u =>
      refine ⟨u, rfl, ?_⟩
      unfold claim_next_content_job
      rw [hsel]
      simp only [hu, Option.getD_some]

/-- Claim C4 witness: on dbClaimFix the claim selects story 6 (zero attempts
beat story 5's one attempt; story 7 has no URL), marks it fetching with one
attempt, and returns its id, url, domain and incremented attempts. -/
theorem c4_witness :
    ∃ u, claimTarget.url = some u ∧
      claim_next_content_job dbClaimFix 9 3 =
        (some { id := claimTarget.id, url := u, domain := claimTarget.domain,
                content_attempts := claimTarget.content_attempts + 1 },
         { dbClaimFix with stories := dbClaimFix.stories.map (fun t =>
             if t.id = claimTarget.id then
               { t with content_status := ContentStatus.fetching,
                        content_attempts := t.content_attempts + 1,
                        updated_at := 9 }
             else t) }) :=
  (c4_claim_next_content_job dbClaimFix 9 3).2 claimTarget
    (by decide) (by decide) (by decide)

theorem attempts_le_map (l : List Story) (g : Story → Story)
    (hg : ∀ t, (g t).content_attempts = t.content_attempts)
    (h : ∀ s ∈ l, s.content_attempts ≤ 3) :
    ∀ s ∈ l.map g, s.content_attempts ≤ 3 := by
  intro x hx
  obtain ⟨t, htmem, rfl⟩ := List.mem_map.mp hx
  rw [hg t]
  exact h t htmem

/-- Claim C5: from any store satisfying the attempts bound, every queue
operation (claim with the MAX_RETRIES bound 3, retry, complete, stuck-job
cleanup, upsert) preserves content_attempts at most 3 for every story (the
claim needs the primary-key uniqueness of ids that SQLite enforces), and
the claim only ever selects stories whose status is pending or retry, never
a terminal one. -/
theorem c5_attempts_invariant (db : Db) (now : Nat) (hinv : AttemptsInv db) :
    (PkNodup db → AttemptsInv (claim_next_content_job db now 3).2) ∧
    (∀ sid, AttemptsInv (retry_content_job db now sid)) ∧
    (∀ (z : ZlibCodec) (sid : Nat) (content : Option Str) (status : ContentStatus)
      (source : Option Str) (ms : Nat),
      AttemptsInv (complete_content_job z db now sid content status source ms)) ∧
    AttemptsInv (cleanup_stuck_content_jobs db now 3) ∧
    (∀ (z : ZlibCodec) (sd : StoryDict), AttemptsInv (upsert_story z db now sd)) ∧
    (∀ (j : ClaimedJob) (db2 : Db), claim_next_content_job db now 3 = (some j, db2) →
      ∃ s ∈ db.stories, s.id = j.id ∧
        (s.content_status = ContentStatus.pending ∨
         s.content_status = ContentStatus.retry)) := by
  refine ⟨?_, ?_, ?_, ?_, ?_, ?_⟩
  · intro hnd
    unfold claim_next_content_job
    cases hsel : selectJob db.stories 3 with
    | none => exact hinv
    | some s =>
      obtain ⟨hsmem, hselig⟩ := selectJob_some_mem db.stories 3 s hsel
      intro x hx
      obtain ⟨t, htmem, rfl⟩ := List.mem_map.mp hx
      by_cases hid : t.id = s.id
      · have hts : t = s := List.inj_on_of_nodup_map hnd htmem hsmem hid
        rw [if_pos hid]
        have h3 : t.content_attempts < 3 := by
          rw [hts]
          exact hselig.2.2
        show t.content_attempts + 1 ≤ 3
        omega
      · rw [if_neg hid]
        exact hinv t htmem
  · intro sid
    exact attempts_le_map db.stories _ (fun t => by split <;> rfl) hinv
  · intro z sid content status source ms
    exact attempts_le_map db.stories _ (fun t => by split <;> rfl) hinv
  · unfold cleanup_stuck_content_jobs
    simp only []
    exact attempts_le_map _ _ (fun t => by split <;> rfl)
      (attempts_le_map _ _ (fun t => by split <;> rfl)
        (attempts_le_map _ _ (fun t => by split <;> rfl) hinv))
  · intro z sd
    unfold upsert_story
    by_cases hst : optStrFalsy sd.url = true ∧ ¬ optStrFalsy sd.text = true
    · rw [if_pos hst]
      by_cases hany : db.stories.any (fun t => decide (t.id = sd.id)) = true
      · rw [if_pos hany]
        exact attempts_le_map db.stories _ (fun t => by split <;> rfl) hinv
      · rw [if_neg hany]
        intro x hx
        rcases List.mem_append.mp hx with hx | hx
        · exact hinv x hx
        · simp at hx
          simp [hx]
    · rw [if_neg hst]
      by_cases hany : db.stories.any (fun t => decide (t.id = sd.id)) = true
      · rw [if_pos hany]
        exact attempts_le_map db.stories _ (fun t => by split <;> rfl) hinv
      · rw [if_neg hany]
        intro x hx
        rcases List.mem_append.mp hx with hx | hx
        · exact hinv x hx
        · simp at hx
          simp [hx]
  · intro j db2 hclaim
    unfold claim_next_content_job at hclaim
    cases hsel : selectJob db.stories 3 with
    | none =>
      rw [hsel] at hclaim
      exact absurd (congrArg Prod.fst hclaim) (by simp)
    | some s =>
      rw [hsel] at hclaim
      obtain ⟨hsmem, hselig⟩ := selectJob_some_mem db.stories 3 s hsel
      have hj : j = { id := s.id, url := s.url.getD [], domain := s.domain,
                      content_attempts := s.content_attempts + 1 } :=
        (Option.some.inj (congrArg Prod.fst hclaim)).symm
      exact ⟨s, hsmem, by rw [hj], hselig.1⟩

/-- Claim C5 witness: the invariant theorem instantiated on dbClaimFix, which
satisfies the attempts bound and the primary-key invariant. -/
theorem c5_witness :
    AttemptsInv (claim_next_content_job dbClaimFix 9 3).2 ∧
    AttemptsInv (cleanup_stuck_content_jobs dbClaimFix 9 3) := by
  have h := c5_attempts_invariant dbClaimFix 9 (by decide)
  exact ⟨h.1 (by decide), h.2.2.2.1⟩

/-! ### Claim C7: listing pagination -/

theorem processRows_length (db : Db) (opts : StoriesQueryOpts) (limit : Nat) :
    ∀ (rows : List Story) (acc : List AnnotatedStory) (seen : List Str),
      acc.length ≤ limit →
      ((processRows db opts limit rows acc seen).1).length ≤ limit := by
  intro rows
  induction rows with
  | nil => intro acc seen hacc; exact hacc
  | cons r rs ih =>
    intro acc seen hacc
    rw [processRows]
    by_cases hfull : limit ≤ acc.length
    · rw [if_pos hfull]
      exact hacc
    · rw [if_neg hfull]
      split <;> (try split) <;>
        first
          | exact ih _ _ hacc
          | exact ih _ _ (by simp; omega)

theorem fetchLoop_length (db : Db) (opts : StoriesQueryOpts) (sort : SortOrder)
    (limit sql_limit : Nat) :
    ∀ (fuel : Nat) (cursor : Option (Nat × Nat)) (acc : List AnnotatedStory)
      (seen : List Str) (hm : Bool), acc.length ≤ limit →
      ((fetchLoop db opts sort limit sql_limit fuel cursor acc seen hm).1).length ≤ limit := by
  intro fuel
  induction fuel with
  | zero => intro cursor acc seen hm hacc; exact hacc
  | succ fuel ih =>
    intro cursor acc seen hm hacc
    rw [fetchLoop]
    by_cases hcond : acc.length < limit ∧ hm = true
    · rw [if_pos hcond]
      cases hrows : sqlStoriesBatch db opts sort cursor sql_limit with
      | nil => exact hacc
      | cons r0 rest =>
        exact ih _ _ _ _ (processRows_length db opts limit (r0 :: rest) acc seen hacc)
    · rw [if_neg hcond]
      exact hacc

theorem buildPage_spec (limit : Nat) (out : List AnnotatedStory × Bool)
    (hlen : out.1.length ≤ limit) :
    (buildPage limit out).stories = out.1 ∧
    (buildPage limit out).has_more = out.2 ∧
    ((buildPage limit out).stories = [] → (buildPage limit out).next_cursor = none) ∧
    ((buildPage limit out).stories ≠ [] →
      ((buildPage limit out).has_more = true ∨
        (buildPage limit out).stories.length = limit) →
      (buildPage limit out).next_cursor =
        ((buildPage limit out).stories.getLast?).map (fun a => cursorStringOf a.story)) ∧
    ((buildPage limit out).has_more = false →
      (buildPage limit out).stories.length < limit →
      (buildPage limit out).next_cursor = none) := by
  obtain ⟨stories, hmdb⟩ := out
  simp only [] at hlen
  have htake : stories.take limit = stories := List.take_of_length_le hlen
  have hnotlt : ¬ limit < stories.length := by omega
  have hst : (buildPage limit (stories, hmdb)).stories = stories := by
    simp [buildPage, htake]
  have hhm : (buildPage limit (stories, hmdb)).has_more = hmdb := by
    simp [buildPage, hnotlt]
  refine ⟨hst, hhm, ?_, ?_, ?_⟩
  · intro hnil
    rw [hst] at hnil
    subst hnil
    rfl
  · intro hne hcond
    rw [hst] at hne
    rw [hst]
    rw [hhm] at hcond
    cases stories with
    | nil => exact absurd rfl hne
    | cons s0 rest =>
      obtain ⟨y, hy⟩ : ∃ y, (s0 :: rest).getLast? = some y := by
        cases hg : (s0 :: rest).getLast? with
        | none => exact absurd (List.getLast?_eq_none_iff.mp hg) (by simp)
        | some y => exact ⟨y, rfl⟩
      have hcond2 : hmdb = true ∨ limit ≤ (s0 :: rest).length := by
        rcases hcond with h | h
        · exact Or.inl h
        · rw [hst] at h
          exact Or.inr (by omega)
      show (buildPage limit (s0 :: rest, hmdb)).next_cursor = _
      have hlen2 : (s0 :: rest).length ≤ limit := hlen
      have hlast : (s0 :: rest).getLastD s0 = y := by
        rw [List.getLastD_eq_getLast?, hy]
        rfl
      simp only [buildPage, if_pos hcond2, if_pos hlen2, hy, hlast, Option.map_some]
      rfl
  · intro hfalse hlt
    rw [hhm] at hfalse
    rw [hst] at hlt
    cases stories with
    | nil => rfl
    | cons s0 rest =>
      have hcond : ¬ (hmdb = true ∨ limit ≤ (s0 :: rest).length) := by
        intro hor
        rcases hor with h | h
        · rw [hfalse] at h
          exact absurd h (by simp)
        · omega
      show (buildPage limit (s0 :: rest, hmdb)).next_cursor = none
      simp only [buildPage, if_neg hcond]

/-- Claim C7 as amended: every page holds at most limit stories; next_cursor
is "<time>:<id>" of the last returned story exactly when the page is
non-empty and either has_more is reported or the page holds exactly limit
stories, and None otherwise (in particular on a non-empty final short page);
has_more reports whether the last SQL over-fetch batch was full, which is not
equivalent to the existence of further stories passing the filters. -/
theorem c7_pagination (db : Db) (opts : StoriesQueryOpts) (limit : Nat)
    (cursor : Option (Nat × Nat)) (sort : SortOrder) :
    (get_stories db opts limit cursor sort).stories.length ≤ limit ∧
    ((get_stories db opts limit cursor sort).stories = [] →
      (get_stories db opts limit cursor sort).next_cursor = none) ∧
    ((get_stories db opts limit cursor sort).stories ≠ [] →
      ((get_stories db opts limit cursor sort).has_more = true ∨
        (get_stories db opts limit cursor sort).stories.length = limit) →
      (get_stories db opts limit cursor sort).next_cursor =
        ((get_stories db opts limit cursor sort).stories.getLast?).map
          (fun a => cursorStringOf a.story)) ∧
    ((get_stories db opts limit cursor sort).has_more = false →
      (get_stories db opts limit cursor sort).stories.length < limit →
      (get_stories db opts limit cursor sort).next_cursor = none) := by
  have hlen := fetchLoop_length db opts sort limit (limit * 3)
    (db.stories.length + 1) cursor [] [] true (by simp)
  have hspec := buildPage_spec limit
    (fetchLoop db opts sort limit (limit * 3) (db.stories.length + 1) cursor [] [] true)
    hlen
  obtain ⟨hst, -, hnil, hcur, hnone⟩ := hspec
  refine ⟨?_, hnil, hcur, hnone⟩
  show (buildPage limit _).stories.length ≤ limit
  rw [hst]
  exact hlen

/-- Claim C7 counterexample: with one matching story and limit 2 the page is
non-empty yet next_cursor is None (not "<time>:<id>" of the last story); with
two matching stories and limit 1 the page holds story 2, has_more is false,
and yet story 1 passes all listing filters and lies beyond the page in the
newest-first order. -/
theorem c7_counterexample :
    ((get_stories dbPageA optsPlain 2 none SortOrder.newest).stories.map
        (fun a => a.story.id) = [1] ∧
      (get_stories dbPageA optsPlain 2 none SortOrder.newest).next_cursor = none) ∧
    ((get_stories dbPageB optsPlain 1 none SortOrder.newest).stories.map
        (fun a => a.story.id) = [2] ∧
      (get_stories dbPageB optsPlain 1 none SortOrder.newest).has_more = false ∧
      passesListingFilters dbPageB optsPlain
        { storyFix with id := 1, time := 10, url := some [ 'a' ] } = true ∧
      (10 : Nat) < 20) := by
  exact ⟨⟨rfl, rfl⟩, ⟨rfl, rfl, rfl, by decide⟩⟩

/-- Claim C7 witness: on dbPageB with limit 1 the page is full, so the
amended theorem yields next_cursor equal to the cursor string of the last
returned story. -/
theorem c7_witness :
    (get_stories dbPageB optsPlain 1 none SortOrder.newest).next_cursor =
      ((get_stories dbPageB optsPlain 1 none SortOrder.newest).stories.getLast?).map
        (fun a => cursorStringOf a.story) :=
  (c7_pagination dbPageB optsPlain 1 none SortOrder.newest).2.2.1
    (by decide) (by decide)

end SmartReader
